import Mathlib

set_option linter.unusedVariables false

/-! Shallow embedding of the monitoring dashboard repository's state
aggregation core: the comprehensive console monitor
(`src/comprehensive-monitor.js`) and the dashboard WebSocket server.
JavaScript `Map`s are modelled as insertion-ordered association lists
(`Map.set` on an existing key updates in place, on a fresh key appends;
`Map.delete` filters), the `Set` of WebSocket clients as a list,
timestamps (`new Date()`) as naturals, and a `JSON.parse` failure as the
handler receiving `none` instead of a typed payload. -/

abbrev SMap (α : Type) := List (String × α)

/-- Lookup in a JS `Map` (`map.get(k)` / `map.has(k)`). -/
def aget {α : Type} (m : SMap α) (k : String) : Option α :=
  (m.find? (fun p => p.1 == k)).map (fun p => p.2)

/-- `map.set(k, v)`: update in place if the key exists, else append. -/
def aset {α : Type} (m : SMap α) (k : String) (v : α) : SMap α :=
  if m.any (fun p => p.1 == k) then
    m.map (fun p => if p.1 == k then (k, v) else p)
  else m ++ [(k, v)]

/-- `map.delete(k)`. -/
def adel {α : Type} (m : SMap α) (k : String) : SMap α :=
  m.filter (fun p => p.1 != k)

/-- The key list of a map, in iteration order. -/
def keysOf {α : Type} (m : SMap α) : List String := m.map (fun p => p.1)

/-- A well-formed JS map never holds two entries for one key. -/
def KeysNodup {α : Type} (m : SMap α) : Prop := (keysOf m).Nodup

theorem find?_update_hit {α : Type} (m : SMap α) (k : String) (v : α)
    (h : m.any (fun p => p.1 == k) = true) :
    (m.map (fun p => if p.1 == k then (k, v) else p)).find? (fun p => p.1 == k)
      = some (k, v) := by
  induction m with
  | nil => simp at h
  | cons p t ih =>
    by_cases hp : (p.1 == k) = true
    · rw [List.map_cons, if_pos hp]
      exact List.find?_cons_of_pos _ (by simp)
    · simp only [List.any_cons, hp, Bool.false_or] at h
      have hb : (p.1 == k) = false := by simpa using hp
      rw [List.map_cons, if_neg hp]
      simp only [List.find?_cons, hb]
      exact ih h

theorem find?_update_miss {α : Type} (m : SMap α) (k k' : String) (v : α)
    (hne : k' ≠ k) :
    (m.map (fun p => if p.1 == k then (k, v) else p)).find? (fun p => p.1 == k')
      = m.find? (fun p => p.1 == k') := by
  induction m with
  | nil => simp
  | cons p t ih =>
    by_cases hp : (p.1 == k) = true
    · have hp' : p.1 = k := by simpa using hp
      rw [List.map_cons, if_pos hp,
        List.find?_cons_of_neg _ (by simp; exact Ne.symm hne),
        List.find?_cons_of_neg _ (by simp [hp']; exact Ne.symm hne)]
      exact ih
    · rw [List.map_cons, if_neg hp]
      by_cases hq : (p.1 == k') = true
      · simp only [List.find?_cons, hq]
      · have hb : (p.1 == k') = false := by simpa using hq
        simp only [List.find?_cons, hb]
        exact ih

theorem find?_of_not_any {α : Type} (m : SMap α) (k : String)
    (h : ¬ m.any (fun p => p.1 == k) = true) :
    m.find? (fun p => p.1 == k) = none := by
  rw [List.find?_eq_none]
  intro p hp
  simp only [List.any_eq_true, not_exists] at h
  intro hk
  exact absurd hk (by simpa using fun hh : (p.1 == k) = true => h p ⟨hp, hh⟩)

theorem aget_aset_self {α : Type} (m : SMap α) (k : String) (v : α) :
    aget (aset m k v) k = some v := by
  unfold aget aset
  by_cases h : m.any (fun p => p.1 == k)
  · rw [if_pos h, find?_update_hit m k v h]
    rfl
  · rw [if_neg h, List.find?_append, find?_of_not_any m k h, Option.none_or,
      List.find?_cons_of_pos _ (by simp)]
    rfl

theorem aget_aset_ne {α : Type} (m : SMap α) (k k' : String) (v : α)
    (hne : k' ≠ k) : aget (aset m k v) k' = aget m k' := by
  unfold aget aset
  by_cases h : m.any (fun p => p.1 == k)
  · rw [if_pos h, find?_update_miss m k k' v hne]
  · rw [if_neg h, List.find?_append,
      List.find?_cons_of_neg _ (by simp; exact Ne.symm hne)]
    simp

theorem aget_adel_self {α : Type} (m : SMap α) (k : String) :
    aget (adel m k) k = none := by
  unfold aget adel
  rw [Option.map_eq_none', List.find?_eq_none]
  intro p hp
  have := List.of_mem_filter hp
  simpa [bne] using this

theorem aget_eq_none_iff {α : Type} (m : SMap α) (k : String) :
    aget m k = none ↔ ∀ p ∈ m, p.1 ≠ k := by
  unfold aget
  rw [Option.map_eq_none', List.find?_eq_none]
  simp

theorem adel_eq_self_of_absent {α : Type} (m : SMap α) (k : String)
    (h : ∀ p ∈ m, p.1 ≠ k) : adel m k = m := by
  unfold adel
  apply List.filter_eq_self.mpr
  intro p hp
  simpa [bne] using h p hp

theorem keysOf_aset {α : Type} (m : SMap α) (k : String) (v : α) :
    keysOf (aset m k v) = if m.any (fun p => p.1 == k) then keysOf m
      else keysOf m ++ [k] := by
  unfold keysOf aset
  by_cases h : m.any (fun p => p.1 == k)
  · rw [if_pos h, if_pos h, List.map_map]
    apply List.map_congr_left
    intro p hp
    by_cases hp1 : (p.1 == k) = true
    · simp [Function.comp, hp1, (by simpa using hp1 : p.1 = k)]
    · simp [Function.comp, hp1]
  · simp [h]

theorem keysNodup_aset {α : Type} (m : SMap α) (k : String) (v : α)
    (h : KeysNodup m) : KeysNodup (aset m k v) := by
  unfold KeysNodup
  rw [keysOf_aset]
  by_cases hc : m.any (fun p => p.1 == k)
  · simpa [hc] using h
  · rw [if_neg hc]
    apply List.Nodup.append h (List.nodup_singleton k)
    intro a ha hb
    simp only [List.mem_singleton] at hb
    subst hb
    simp only [List.any_eq_true, not_exists] at hc
    obtain ⟨p, hp, hpk⟩ := List.mem_map.mp ha
    exact hc p ⟨hp, by simp [hpk]⟩

theorem keysNodup_adel {α : Type} (m : SMap α) (k : String)
    (h : KeysNodup m) : KeysNodup (adel m k) := by
  unfold KeysNodup keysOf adel
  exact List.Nodup.sublist (List.Sublist.map _ (List.filter_sublist m)) h

/-! ## Data model

Typed shapes of the JSON payloads and cached records, following the
fields used by `comprehensive-monitor.js` and the dashboard server
(demo-mode seed data shows the full health/orderbook shapes). -/

/-- Parsed payload of a `metrics:*` message. -/
structure Health where
  cpuUsage : ℚ
  memoryUsage : ℚ
  activeMarkets : Nat
  cpuCores : Nat
  loadAverage : ℚ
  freeDiskSpaceMB : Nat
  isHealthy : Bool
deriving DecidableEq

/-- Cached health record: the parsed payload spread together with a fresh
`lastUpdate` timestamp. -/
structure HealthRec where
  fields : Health
  lastUpdate : Nat
deriving DecidableEq

/-- One price level `{price, quantity, count}`. -/
structure Level where
  price : Int
  quantity : Nat
  count : Nat
deriving DecidableEq

/-- One side-pair record (`marketA` / `marketB`). -/
structure Side where
  marketId : String
  bids : List Level
  asks : List Level
  bestBid : Int
  bestAsk : Int
  totalOrders : Nat
deriving DecidableEq

/-- Parsed payload of an `orderbooks` message. -/
structure ObMsg where
  type : String
  eventId : String
  nodeId : String
  marketA : Side
  marketB : Side
deriving DecidableEq

/-- Cached orderbook record: the parsed payload spread together with a
fresh `lastUpdate` timestamp. -/
structure ObRec where
  eventId : String
  nodeId : String
  marketA : Side
  marketB : Side
  lastUpdate : Nat
deriving DecidableEq

/-- Parsed payload of a `market_status:*` message. -/
structure StatusMsg where
  status : String
deriving DecidableEq

/-- Cached market-status record (console monitor only). -/
structure StatusRec where
  status : String
  lastUpdate : Nat
deriving DecidableEq

/-- Fan-out events pushed to observers (the `broadcast(...)` payloads). -/
inductive Event where
  | health_update (nodeId : String) (health : Health) (timestamp : Nat)
  | orderbook_update (eventId nodeId : String) (marketA marketB : Side)
      (timestamp : Nat)
  | market_removed (eventId : String) (status : String) (timestamp : Nat)
  | market_discovery (totalMarkets : Nat) (timestamp : Nat)
deriving DecidableEq

/-- The snapshot entity a fan-out event is about, used to detect duplicate
entities in a replay. -/
inductive EntityKey where
  | healthOf (nodeId : String)
  | orderbookOf (nodeId eventId : String)
  | statusOf (eventId : String)
  | totals
deriving DecidableEq

def Event.entityKey : Event → EntityKey
  | .health_update n _ _ => .healthOf n
  | .orderbook_update e n _ _ _ => .orderbookOf n e
  | .market_removed e _ _ => .statusOf e
  | .market_discovery _ _ => .totals

/-! ## The comprehensive console monitor (`src/comprehensive-monitor.js`)

State: `healthData`, `orderbooksByNode`, `marketStatus`, `totalMarkets`
(unset until the first discovery message), `lastUpdateTime`, plus a
count of `console.error` calls made by the catch blocks. -/

structure CMState where
  healthData : SMap HealthRec
  orderbooksByNode : SMap (SMap ObRec)
  marketStatus : SMap StatusRec
  totalMarkets : Option Nat
  lastUpdateTime : Nat
  errors : Nat
deriving DecidableEq

namespace ComprehensiveMonitor

/-- `handleHealthUpdate(nodeId, message)`: on parse success cache
`{...healthData, lastUpdate: new Date()}` under `nodeId`; on parse
failure log one error and change nothing. -/
def handleHealthUpdate (s : CMState) (nodeId : String) (msg : Option Health)
    (now : Nat) : CMState :=
  match msg with
  | none => { s with errors := s.errors + 1 }
  | some h =>
      { s with healthData := aset s.healthData nodeId ⟨h, now⟩,
               lastUpdateTime := now }

/-- `handleOrderbookUpdate(message)`: ignore messages whose `type` is not
`'orderbook_update'`; otherwise cache under `nodeId → eventId`. -/
def handleOrderbookUpdate (s : CMState) (msg : Option ObMsg)
    (now : Nat) : CMState :=
  match msg with
  | none => { s with errors := s.errors + 1 }
  | some d =>
      if d.type ≠ "orderbook_update" then s
      else
        let inner := (aget s.orderbooksByNode d.nodeId).getD []
        { s with
            orderbooksByNode := aset s.orderbooksByNode d.nodeId
              (aset inner d.eventId ⟨d.eventId, d.nodeId, d.marketA, d.marketB, now⟩),
            lastUpdateTime := now }

/-- `handleMarketStatusUpdate(eventId, message)`: record the status, then
if it is `CLOSED`/`CLEARED` delete `eventId` from every node's orderbook
map. -/
def handleMarketStatusUpdate (s : CMState) (eventId : String)
    (msg : Option StatusMsg) (now : Nat) : CMState :=
  match msg with
  | none => { s with errors := s.errors + 1 }
  | some st =>
      let s1 := { s with marketStatus := aset s.marketStatus eventId ⟨st.status, now⟩ }
      if st.status = "CLOSED" ∨ st.status = "CLEARED" then
        { s1 with
            orderbooksByNode := s1.orderbooksByNode.map
              (fun p => (p.1, adel p.2 eventId)),
            lastUpdateTime := now }
      else { s1 with lastUpdateTime := now }

/-- `handleMarketDiscovery(message)`. -/
def handleMarketDiscovery (s : CMState) (msg : Option Nat)
    (now : Nat) : CMState :=
  match msg with
  | none => { s with errors := s.errors + 1 }
  | some n => { s with totalMarkets := some n, lastUpdateTime := now }

/-- One inbound bus message, tagged by the topic the monitor subscribed
to; the payload is `none` when `JSON.parse` would throw. -/
inductive Input where
  | health (nodeId : String) (msg : Option Health)
  | orderbook (msg : Option ObMsg)
  | status (eventId : String) (msg : Option StatusMsg)
  | discovery (msg : Option Nat)

/-- Dispatch of one message to its handler, as wired by
`setupSubscriptions`. -/
def step (s : CMState) (i : Input) (now : Nat) : CMState :=
  match i with
  | .health n msg => handleHealthUpdate s n msg now
  | .orderbook msg => handleOrderbookUpdate s msg now
  | .status e msg => handleMarketStatusUpdate s e msg now
  | .discovery msg => handleMarketDiscovery s msg now

/-- The same message with its payload replaced by one that fails to
parse. -/
def malformed : Input → Input
  | .health n _ => .health n none
  | .orderbook _ => .orderbook none
  | .status e _ => .status e none
  | .discovery _ => .discovery none

/-- A sequence of health events for one node: payload, the time the
event occurred, and the (later) time the monitor processed it. -/
structure HEvent where
  payload : Health
  eventTime : Nat
  procTime : Nat
deriving DecidableEq

/-- Processing a whole sequence of health events for `nodeId`. -/
def processHealthSeq (s : CMState) (nodeId : String)
    (evs : List HEvent) : CMState :=
  evs.foldl (fun st e => handleHealthUpdate st nodeId (some e.payload) e.procTime) s

end ComprehensiveMonitor

/-! ## The dashboard WebSocket server

State: the same health/orderbook caches, a scalar `totalMarkets`
(initialised to 0), the `Set` of connected clients, and the count of
`console.error` calls. A client is modelled by an identifier, its
`readyState === WebSocket.OPEN` test, and whether `send` succeeds or
throws on it. -/

structure Client where
  id : Nat
  readyStateOpen : Bool
  sendOk : Bool
deriving DecidableEq

structure DSState where
  healthData : SMap HealthRec
  orderbooksByNode : SMap (SMap ObRec)
  totalMarkets : Nat
  clients : List Client
  errors : Nat
deriving DecidableEq

namespace DashboardServer

/-- Result of one `broadcast(data)` call: the surviving client set, the
ids that received the message (in iteration order), and the number of
send errors logged. -/
structure BCResult where
  kept : List Client
  delivered : List Nat
  errCount : Nat
deriving DecidableEq

/-- `broadcast(data)`: for each client, skip it unless
`readyState === WebSocket.OPEN`; try to send; on a throw log one error
and delete the client from the set. The call itself always returns. -/
def broadcast (clients : List Client) : BCResult :=
  clients.foldl
    (fun acc c =>
      if c.readyStateOpen then
        if c.sendOk then
          { acc with kept := acc.kept ++ [c], delivered := acc.delivered ++ [c.id] }
        else
          { acc with errCount := acc.errCount + 1 }
      else { acc with kept := acc.kept ++ [c] })
    ⟨[], [], 0⟩

/-- `handleHealthUpdate(nodeId, message)` of the dashboard server:
cache, then broadcast a `health_update`. Returns the new store state and
the list of broadcast calls made. -/
def handleHealthUpdate (s : DSState) (nodeId : String) (msg : Option Health)
    (now : Nat) : DSState × List Event :=
  match msg with
  | none => ({ s with errors := s.errors + 1 }, [])
  | some h =>
      ({ s with healthData := aset s.healthData nodeId ⟨h, now⟩ },
       [.health_update nodeId h now])

/-- `handleOrderbookUpdate(message)` of the dashboard server. -/
def handleOrderbookUpdate (s : DSState) (msg : Option ObMsg)
    (now : Nat) : DSState × List Event :=
  match msg with
  | none => ({ s with errors := s.errors + 1 }, [])
  | some d =>
      if d.type ≠ "orderbook_update" then (s, [])
      else
        let inner := (aget s.orderbooksByNode d.nodeId).getD []
        ({ s with
            orderbooksByNode := aset s.orderbooksByNode d.nodeId
              (aset inner d.eventId ⟨d.eventId, d.nodeId, d.marketA, d.marketB, now⟩) },
         [.orderbook_update d.eventId d.nodeId d.marketA d.marketB now])

/-- `handleMarketStatusUpdate(eventId, message)` of the dashboard server:
on a terminal status delete `eventId` from every node's orderbook map and
broadcast one `market_removed`; otherwise do nothing. (This server keeps
no market-status records.) -/
def handleMarketStatusUpdate (s : DSState) (eventId : String)
    (msg : Option StatusMsg) (now : Nat) : DSState × List Event :=
  match msg with
  | none => ({ s with errors := s.errors + 1 }, [])
  | some st =>
      if st.status = "CLOSED" ∨ st.status = "CLEARED" then
        ({ s with
            orderbooksByNode := s.orderbooksByNode.map
              (fun p => (p.1, adel p.2 eventId)) },
         [.market_removed eventId st.status now])
      else (s, [])

/-- `handleMarketDiscovery(message)` of the dashboard server. -/
def handleMarketDiscovery (s : DSState) (msg : Option Nat)
    (now : Nat) : DSState × List Event :=
  match msg with
  | none => ({ s with errors := s.errors + 1 }, [])
  | some n =>
      ({ s with totalMarkets := n }, [.market_discovery n now])

/-- `sendCachedDataToClient(client)`: all cached health records, then all
cached orderbook records grouped by node, then `market_discovery` when
`totalMarkets > 0`. -/
def sendCachedDataToClient (s : DSState) (now : Nat) : List Event :=
  (s.healthData.map (fun p => Event.health_update p.1 p.2.fields now))
    ++ (s.orderbooksByNode.map
          (fun p => p.2.map
            (fun q => Event.orderbook_update q.1 p.1 q.2.marketA q.2.marketB now))).flatten
    ++ (if s.totalMarkets > 0 then [Event.market_discovery s.totalMarkets now] else [])

/-- Number of entities currently held by the snapshot store: one per
health record, one per cached (node, market) orderbook, and one for the
system total when it is known (`totalMarkets > 0`). -/
def entityCount (s : DSState) : Nat :=
  s.healthData.length
    + (s.orderbooksByNode.map (fun p => p.2.length)).sum
    + (if s.totalMarkets > 0 then 1 else 0)

/-- Deliver each produced event through `broadcast`, threading the
client-set mutations and error logs, and tagging each delivery with the
receiving client's id. -/
def emitAll (s : DSState) (evts : List Event) : DSState × List (Nat × Event) :=
  evts.foldl
    (fun acc ev =>
      let r := broadcast acc.1.clients
      ({ acc.1 with clients := r.kept, errors := acc.1.errors + r.errCount },
       acc.2 ++ r.delivered.map (fun i => (i, ev))))
    (s, [])

/-- One reaction step of the dashboard server: a new WebSocket
connection, a client `close` / `error` callback, or one bus message on
one of the four subscribed topics. -/
inductive Input where
  | connect (c : Client)
  | disconnect (id : Nat)
  | wsError (id : Nat)
  | health (nodeId : String) (msg : Option Health)
  | orderbook (msg : Option ObMsg)
  | status (eventId : String) (msg : Option StatusMsg)
  | discovery (msg : Option Nat)

/-- Dispatch of one input. On `connect` the client is added to the set
and the cached snapshot is replayed to it alone (`sendCachedDataToClient`
is wrapped in one try/catch: if its sends throw, one error is logged);
bus messages run their handler and broadcast the produced events. -/
def step (s : DSState) (i : Input) (now : Nat) : DSState × List (Nat × Event) :=
  match i with
  | .connect c =>
      let s1 := { s with clients := s.clients ++ [c] }
      if c.sendOk then
        (s1, (sendCachedDataToClient s now).map (fun e => (c.id, e)))
      else ({ s1 with errors := s1.errors + 1 }, [])
  | .disconnect i =>
      ({ s with clients := s.clients.filter (fun c => c.id ≠ i) }, [])
  | .wsError i =>
      ({ s with clients := s.clients.filter (fun c => c.id ≠ i),
                errors := s.errors + 1 }, [])
  | .health n msg =>
      let r := handleHealthUpdate s n msg now
      emitAll r.1 r.2
  | .orderbook msg =>
      let r := handleOrderbookUpdate s msg now
      emitAll r.1 r.2
  | .status e msg =>
      let r := handleMarketStatusUpdate s e msg now
      emitAll r.1 r.2
  | .discovery msg =>
      let r := handleMarketDiscovery s msg now
      emitAll r.1 r.2

/-- Sequential processing of a list of timestamped inputs, concatenating
all per-client deliveries in the order they are sent. -/
def run (s : DSState) (inputs : List (Input × Nat)) :
    DSState × List (Nat × Event) :=
  match inputs with
  | [] => (s, [])
  | (i, now) :: rest =>
      let r := step s i now
      let r2 := run r.1 rest
      (r2.1, r.2 ++ r2.2)

/-- Well-formedness of the dashboard store: no JS map holds a key twice. -/
def WF (s : DSState) : Prop :=
  KeysNodup s.healthData ∧ KeysNodup s.orderbooksByNode ∧
    ∀ p ∈ s.orderbooksByNode, KeysNodup p.2

end DashboardServer

namespace DashboardServer

/-- Randomness drawn by one `updateDemoData` tick: two `Math.random()`
draws per health record, one gate draw for the 30% orderbook branch, and
one `Math.random() > 0.5` direction draw per orderbook side. -/
structure DemoRand where
  healthR : String → ℚ × ℚ
  gate : ℚ
  bidUp : String → String → Bool
  askUp : String → String → Bool

/-- `Math.max(0, Math.min(100, x))`. -/
def clampPct (x : ℚ) : ℚ := max 0 (min 100 x)

/-- One demo tick on one health record: random-walk the cpu and memory
percentages, clamp both into `[0, 100]`, refresh `lastUpdate`. -/
def perturbHealth (h : HealthRec) (r1 r2 : ℚ) (now : Nat) : HealthRec :=
  { fields := { h.fields with
      cpuUsage := clampPct (h.fields.cpuUsage + (r1 - 1/2) * 10),
      memoryUsage := clampPct (h.fields.memoryUsage + (r2 - 1/2) * 5) },
    lastUpdate := now }

/-- One demo tick on `marketA`: if the bid list is nonempty move its
first level's price by ±1 and set `bestBid` to that price; then the same
for the ask list and `bestAsk`. -/
def perturbMarketA (m : Side) (bidUp askUp : Bool) : Side :=
  let m1 :=
    match m.bids with
    | [] => m
    | b :: rest =>
        { m with
            bids := { b with price := b.price + (if bidUp then 1 else -1) } :: rest,
            bestBid := b.price + (if bidUp then 1 else -1) }
  match m1.asks with
  | [] => m1
  | a :: rest =>
      { m1 with
          asks := { a with price := a.price + (if askUp then 1 else -1) } :: rest,
          bestAsk := a.price + (if askUp then 1 else -1) }

/-- One demo tick on one cached orderbook: only `marketA` is perturbed. -/
def perturbOb (q : ObRec) (bidUp askUp : Bool) (now : Nat) : ObRec :=
  { q with marketA := perturbMarketA q.marketA bidUp askUp, lastUpdate := now }

/-- `updateDemoData()`: perturb and re-broadcast every health record;
when the 30% gate fires, perturb and re-broadcast every cached
orderbook. -/
def updateDemoData (s : DSState) (rnd : DemoRand) (now : Nat) :
    DSState × List Event :=
  let hd := s.healthData.map
    (fun p => (p.1, perturbHealth p.2 (rnd.healthR p.1).1 (rnd.healthR p.1).2 now))
  let hevts := hd.map (fun p => Event.health_update p.1 p.2.fields now)
  if rnd.gate < 3/10 then
    let obn := s.orderbooksByNode.map
      (fun p => (p.1, p.2.map
        (fun q => (q.1, perturbOb q.2 (rnd.bidUp p.1 q.1) (rnd.askUp p.1 q.1) now))))
    let oevts := (obn.map
      (fun p => p.2.map
        (fun q => Event.orderbook_update q.1 p.1 q.2.marketA q.2.marketB now))).flatten
    ({ s with healthData := hd, orderbooksByNode := obn }, hevts ++ oevts)
  else ({ s with healthData := hd }, hevts)

end DashboardServer

/-- Mapping a function over every value of a JS map commutes with
lookup. -/
theorem aget_map_snd {α β : Type} (m : SMap α) (f : α → β) (k : String) :
    aget (m.map (fun p => (p.1, f p.2))) k = (aget m k).map f := by
  induction m with
  | nil => simp [aget]
  | cons p t ih =>
    by_cases hp : (p.1 == k) = true
    · simp [aget, List.find?_cons, hp]
    · have hb : (p.1 == k) = false := by simpa using hp
      simp only [aget, List.map_cons, List.find?_cons, hb] at ih ⊢
      exact ih

/-- Looking up a key keeps some value across any single upsert. -/
theorem aget_aset_isSome {α : Type} (m : SMap α) (k k' : String) (v : α)
    (h : (aget m k).isSome = true) : (aget (aset m k' v) k).isSome = true := by
  by_cases hk : k = k'
  · subst hk
    rw [aget_aset_self]
    rfl
  · rw [aget_aset_ne m k' k v hk]
    exact h

/-! ## Sample data for witnesses (values from the demo-mode seed). -/

def sampleHealthA : Health := ⟨45.2, 67.8, 12, 8, 2.34, 45000, true⟩

def sampleHealthB : Health := ⟨32.1, 54.3, 8, 4, 1.87, 32000, true⟩

def sampleSide : Side :=
  ⟨"YES", [⟨45, 1000, 3⟩, ⟨44, 1500, 5⟩], [⟨47, 800, 2⟩], 45, 47, 14⟩

def sampleOb : ObRec := ⟨"E1", "100.70.127.124", sampleSide, sampleSide, 0⟩

def cmInit : CMState := ⟨[], [], [], none, 0, 0⟩

def dsSample : DSState :=
  ⟨[("100.70.127.124", ⟨sampleHealthA, 0⟩)],
   [("100.70.127.124", [("E1", sampleOb)]),
    ("100.70.127.125", [("E1", sampleOb)])],
   25, [], 0⟩

/-- C1: for every sequence of health events for node N, after processing
the sequence the monitor's `NodeHealth(N)` record equals exactly the
fields of the last event (each update fully replaces the prior record),
and its `lastUpdate` is the mutation time, which is at or after the last
event's own time. -/
theorem health_sequence_last_write_wins
    (s : CMState) (nodeId : String) (evs : List ComprehensiveMonitor.HEvent)
    (hne : evs ≠ [])
    (ht : ∀ e ∈ evs, e.eventTime ≤ e.procTime) :
    aget (ComprehensiveMonitor.processHealthSeq s nodeId evs).healthData nodeId
        = some ⟨(evs.getLast hne).payload, (evs.getLast hne).procTime⟩
      ∧ (evs.getLast hne).eventTime ≤ (evs.getLast hne).procTime := by
  refine ⟨?_, ht _ (List.getLast_mem hne)⟩
  obtain ⟨l, e, rfl⟩ : ∃ L b, evs = L ++ [b] := by
    rcases evs.eq_nil_or_concat with h1 | h2
    · exact absurd h1 hne
    · simpa using h2
  rw [List.getLast_append _]
  unfold ComprehensiveMonitor.processHealthSeq
  rw [List.foldl_append]
  simp only [List.foldl_cons, List.foldl_nil]
  unfold ComprehensiveMonitor.handleHealthUpdate
  simp [aget_aset_self]

theorem health_sequence_last_write_wins_witness :
    (([⟨sampleHealthA, 1, 2⟩, ⟨sampleHealthB, 3, 4⟩] :
        List ComprehensiveMonitor.HEvent) ≠ [])
    ∧ (∀ e ∈ ([⟨sampleHealthA, 1, 2⟩, ⟨sampleHealthB, 3, 4⟩] :
        List ComprehensiveMonitor.HEvent), e.eventTime ≤ e.procTime)
    ∧ (aget (ComprehensiveMonitor.processHealthSeq cmInit "100.70.127.124"
          [⟨sampleHealthA, 1, 2⟩, ⟨sampleHealthB, 3, 4⟩]).healthData
          "100.70.127.124" = some ⟨sampleHealthB, 4⟩
        ∧ (3 : Nat) ≤ 4) :=
  ⟨by decide, by decide,
   health_sequence_last_write_wins cmInit "100.70.127.124"
     [⟨sampleHealthA, 1, 2⟩, ⟨sampleHealthB, 3, 4⟩] (by decide) (by decide)⟩

/-- C2: a terminal (`CLOSED`/`CLEARED`) status event for market M removes
the cached orderbook for M from every node's sub-map — regardless of
which node the data came from — and makes exactly one `market_removed`
broadcast. -/
theorem terminal_status_evicts_every_node
    (s : DSState) (eventId : String) (st : StatusMsg) (now : Nat)
    (hterm : st.status = "CLOSED" ∨ st.status = "CLEARED") :
    (∀ n ob,
        aget (DashboardServer.handleMarketStatusUpdate s eventId
          (some st) now).1.orderbooksByNode n = some ob
        → aget ob eventId = none)
    ∧ (DashboardServer.handleMarketStatusUpdate s eventId (some st) now).2
        = [Event.market_removed eventId st.status now] := by
  constructor
  · intro n ob hob
    simp only [DashboardServer.handleMarketStatusUpdate, if_pos hterm] at hob
    rw [aget_map_snd s.orderbooksByNode (fun x => adel x eventId) n] at hob
    obtain ⟨ob0, h1, h2⟩ := Option.map_eq_some'.mp hob
    subst h2
    exact aget_adel_self ob0 eventId
  · simp [DashboardServer.handleMarketStatusUpdate, if_pos hterm]

theorem terminal_status_evicts_every_node_witness :
    (("CLEARED" : String) = "CLOSED" ∨ ("CLEARED" : String) = "CLEARED")
    ∧ ((∀ n ob,
          aget (DashboardServer.handleMarketStatusUpdate dsSample "E1"
            (some ⟨"CLEARED"⟩) 5).1.orderbooksByNode n = some ob
          → aget ob "E1" = none)
       ∧ (DashboardServer.handleMarketStatusUpdate dsSample "E1"
            (some ⟨"CLEARED"⟩) 5).2 = [Event.market_removed "E1" "CLEARED" 5]) :=
  ⟨Or.inr rfl,
   terminal_status_evicts_every_node dsSample "E1" ⟨"CLEARED"⟩ 5 (Or.inr rfl)⟩

/-- C6: every status event creates or overwrites the console monitor's
`MarketStatus` record for that market, and no later message of any kind
ever removes a `MarketStatus` record. -/
theorem status_record_upserted_and_retained
    (s : CMState) (eventId : String) (st : StatusMsg) (now : Nat) :
    aget (ComprehensiveMonitor.handleMarketStatusUpdate s eventId
        (some st) now).marketStatus eventId = some ⟨st.status, now⟩
    ∧ ∀ (s2 : CMState) (i : ComprehensiveMonitor.Input) (now2 : Nat) (k : String),
        (aget s2.marketStatus k).isSome = true →
        (aget (ComprehensiveMonitor.step s2 i now2).marketStatus k).isSome = true := by
  constructor
  · unfold ComprehensiveMonitor.handleMarketStatusUpdate
    by_cases hterm : st.status = "CLOSED" ∨ st.status = "CLEARED"
    · simp [hterm, aget_aset_self]
    · simp [hterm, aget_aset_self]
  · intro s2 i now2 k h
    cases i with
    | health n msg =>
        cases msg <;>
          simpa [ComprehensiveMonitor.step,
            ComprehensiveMonitor.handleHealthUpdate] using h
    | orderbook msg =>
        cases msg with
        | none =>
            simpa [ComprehensiveMonitor.step,
              ComprehensiveMonitor.handleOrderbookUpdate] using h
        | some d =>
            simp only [ComprehensiveMonitor.step,
              ComprehensiveMonitor.handleOrderbookUpdate]
            split <;> simpa using h
    | status e msg =>
        cases msg with
        | none =>
            simpa [ComprehensiveMonitor.step,
              ComprehensiveMonitor.handleMarketStatusUpdate] using h
        | some st2 =>
            simp only [ComprehensiveMonitor.step,
              ComprehensiveMonitor.handleMarketStatusUpdate]
            split <;> exact aget_aset_isSome _ _ _ _ h
    | discovery msg =>
        cases msg <;>
          simpa [ComprehensiveMonitor.step,
            ComprehensiveMonitor.handleMarketDiscovery] using h

/-- C7: a status event with a non-terminal status leaves every node's
orderbook sub-map untouched, in the console monitor and in the dashboard
server alike. -/
theorem nonterminal_status_is_frame
    (cs : CMState) (ds : DSState) (e : String) (st : StatusMsg) (now : Nat)
    (h1 : st.status ≠ "CLOSED") (h2 : st.status ≠ "CLEARED") :
    (ComprehensiveMonitor.handleMarketStatusUpdate cs e
        (some st) now).orderbooksByNode = cs.orderbooksByNode
    ∧ (DashboardServer.handleMarketStatusUpdate ds e
        (some st) now).1.orderbooksByNode = ds.orderbooksByNode := by
  have hn : ¬(st.status = "CLOSED" ∨ st.status = "CLEARED") := by tauto
  exact ⟨by simp [ComprehensiveMonitor.handleMarketStatusUpdate, hn],
         by simp [DashboardServer.handleMarketStatusUpdate, hn]⟩

theorem nonterminal_status_is_frame_witness :
    (("TRADING" : String) ≠ "CLOSED") ∧ (("TRADING" : String) ≠ "CLEARED")
    ∧ ((ComprehensiveMonitor.handleMarketStatusUpdate cmInit "E1"
          (some ⟨"TRADING"⟩) 9).orderbooksByNode = cmInit.orderbooksByNode
       ∧ (DashboardServer.handleMarketStatusUpdate dsSample "E1"
          (some ⟨"TRADING"⟩) 9).1.orderbooksByNode = dsSample.orderbooksByNode) :=
  ⟨by decide, by decide,
   nonterminal_status_is_frame cmInit dsSample "E1" ⟨"TRADING"⟩ 9
     (by decide) (by decide)⟩

/-- C9: a terminal status event for a market no node holds (for example a
market never seen) leaves the dashboard store exactly unchanged and still
makes exactly one `market_removed` broadcast. -/
theorem terminal_status_unknown_market
    (s : DSState) (eventId : String) (st : StatusMsg) (now : Nat)
    (hterm : st.status = "CLOSED" ∨ st.status = "CLEARED")
    (habsent : ∀ p ∈ s.orderbooksByNode, ∀ q ∈ p.2, q.1 ≠ eventId) :
    (DashboardServer.handleMarketStatusUpdate s eventId (some st) now).1 = s
    ∧ (DashboardServer.handleMarketStatusUpdate s eventId (some st) now).2
        = [Event.market_removed eventId st.status now] := by
  have hmap : s.orderbooksByNode.map (fun p => (p.1, adel p.2 eventId))
      = s.orderbooksByNode := by
    conv_rhs => rw [← List.map_id s.orderbooksByNode]
    apply List.map_congr_left
    intro p hp
    rw [adel_eq_self_of_absent p.2 eventId (habsent p hp)]
    rfl
  exact ⟨by simp [DashboardServer.handleMarketStatusUpdate, if_pos hterm, hmap],
         by simp [DashboardServer.handleMarketStatusUpdate, if_pos hterm]⟩

theorem terminal_status_unknown_market_witness :
    (("CLOSED" : String) = "CLOSED" ∨ ("CLOSED" : String) = "CLEARED")
    ∧ (∀ p ∈ dsSample.orderbooksByNode, ∀ q ∈ p.2, q.1 ≠ "E9")
    ∧ ((DashboardServer.handleMarketStatusUpdate dsSample "E9"
          (some ⟨"CLOSED"⟩) 6).1 = dsSample
       ∧ (DashboardServer.handleMarketStatusUpdate dsSample "E9"
          (some ⟨"CLOSED"⟩) 6).2 = [Event.market_removed "E9" "CLOSED" 6]) :=
  ⟨Or.inl rfl, by decide,
   terminal_status_unknown_market dsSample "E9" ⟨"CLOSED"⟩ 6
     (Or.inl rfl) (by decide)⟩

theorem status_record_upserted_and_retained_witness :
    aget (ComprehensiveMonitor.handleMarketStatusUpdate cmInit "E1"
        (some ⟨"TRADING"⟩) 7).marketStatus "E1" = some ⟨"TRADING", 7⟩
    ∧ ∀ (s2 : CMState) (i : ComprehensiveMonitor.Input) (now2 : Nat) (k : String),
        (aget s2.marketStatus k).isSome = true →
        (aget (ComprehensiveMonitor.step s2 i now2).marketStatus k).isSome = true :=
  status_record_upserted_and_retained cmInit "E1" ⟨"TRADING"⟩ 7

/-! ## Broadcast fan-out -/

/-- Closed form of one `broadcast` pass: survivors are all clients except
the OPEN ones whose send threw; exactly the OPEN clients with a working
send receive the message; one error is logged per throwing client. -/
theorem broadcast_eq (clients : List Client) :
    DashboardServer.broadcast clients =
      ⟨clients.filter (fun c => !(c.readyStateOpen && !c.sendOk)),
       (clients.filter (fun c => c.readyStateOpen && c.sendOk)).map
         (fun c => c.id),
       (clients.filter (fun c => c.readyStateOpen && !c.sendOk)).length⟩ := by
  suffices hgen : ∀ (cs : List Client) (acc : DashboardServer.BCResult),
      cs.foldl
        (fun acc c =>
          if c.readyStateOpen then
            if c.sendOk then
              { acc with kept := acc.kept ++ [c], delivered := acc.delivered ++ [c.id] }
            else { acc with errCount := acc.errCount + 1 }
          else { acc with kept := acc.kept ++ [c] }) acc =
      ⟨acc.kept ++ cs.filter (fun c => !(c.readyStateOpen && !c.sendOk)),
       acc.delivered ++ (cs.filter (fun c => c.readyStateOpen && c.sendOk)).map
         (fun c => c.id),
       acc.errCount + (cs.filter (fun c => c.readyStateOpen && !c.sendOk)).length⟩ by
    have h := hgen clients ⟨[], [], 0⟩
    simpa [DashboardServer.broadcast] using h
  intro cs
  induction cs with
  | nil => intro acc; simp
  | cons c t ih =>
      intro acc
      cases hro : c.readyStateOpen <;> cases hso : c.sendOk <;>
        simp [hro, hso, ih, List.filter_cons, Nat.add_assoc, Nat.add_comm]

/-- C5 (as stated) is falsified by a concrete client set: one attached
OPEN client whose send throws and one attached non-OPEN client. The
failing client is removed, but the other attached observer does not
receive the event, because `broadcast` skips clients whose
`readyState` is not OPEN. -/
theorem broadcast_other_attached_observer_counterexample :
    ((⟨0, true, false⟩ : Client).readyStateOpen = true
      ∧ (⟨0, true, false⟩ : Client).sendOk = false)
    ∧ (⟨1, false, true⟩ : Client) ∈
        [(⟨0, true, false⟩ : Client), ⟨1, false, true⟩]
    ∧ (⟨1, false, true⟩ : Client) ≠ (⟨0, true, false⟩ : Client)
    ∧ (⟨0, true, false⟩ : Client) ∉
        (DashboardServer.broadcast
          [(⟨0, true, false⟩ : Client), ⟨1, false, true⟩]).kept
    ∧ (1 : Nat) ∉
        (DashboardServer.broadcast
          [(⟨0, true, false⟩ : Client), ⟨1, false, true⟩]).delivered := by
  decide

/-- C5 (amended): `broadcast` always returns; an attached OPEN observer
whose send throws is removed from the attachment set, and every other
attached observer that is OPEN with a working channel still receives the
event. (Attached observers whose `readyState` is not OPEN are skipped,
not delivered to; see the skip theorem.) -/
theorem broadcast_failure_isolated
    (clients : List Client) (c : Client)
    (hc : c ∈ clients) (hopen : c.readyStateOpen = true)
    (hfail : c.sendOk = false) :
    c ∉ (DashboardServer.broadcast clients).kept
    ∧ ∀ c' ∈ clients, c'.readyStateOpen = true → c'.sendOk = true →
        c'.id ∈ (DashboardServer.broadcast clients).delivered := by
  rw [broadcast_eq]
  constructor
  · intro hmem
    have := List.of_mem_filter hmem
    simp [hopen, hfail] at this
  · intro c' hc' hro hso
    exact List.mem_map.mpr
      ⟨c', List.mem_filter.mpr ⟨hc', by simp [hro, hso]⟩, rfl⟩

theorem broadcast_failure_isolated_witness :
    ((⟨0, true, false⟩ : Client) ∈
        [(⟨0, true, false⟩ : Client), ⟨1, true, true⟩]
      ∧ (⟨0, true, false⟩ : Client).readyStateOpen = true
      ∧ (⟨0, true, false⟩ : Client).sendOk = false)
    ∧ ((⟨0, true, false⟩ : Client) ∉
        (DashboardServer.broadcast
          [(⟨0, true, false⟩ : Client), ⟨1, true, true⟩]).kept
      ∧ ∀ c' ∈ [(⟨0, true, false⟩ : Client), ⟨1, true, true⟩],
          c'.readyStateOpen = true → c'.sendOk = true →
          c'.id ∈ (DashboardServer.broadcast
            [(⟨0, true, false⟩ : Client), ⟨1, true, true⟩]).delivered) :=
  ⟨⟨by decide, by decide, by decide⟩,
   broadcast_failure_isolated
     [(⟨0, true, false⟩ : Client), ⟨1, true, true⟩]
     ⟨0, true, false⟩ (by decide) (by decide) (by decide)⟩

/-- C10: `broadcast` skips an attached client whose `readyState` is not
OPEN without removing it; only OPEN clients are ever delivered to; a
client is removed during a broadcast only when an actual send attempt
threw; and a non-OPEN client leaves the attachment set only through its
`close`/`error` callback. -/
theorem broadcast_skips_non_open
    (clients : List Client) (c : Client)
    (hc : c ∈ clients) (hnopen : c.readyStateOpen = false) :
    c ∈ (DashboardServer.broadcast clients).kept
    ∧ (∀ i ∈ (DashboardServer.broadcast clients).delivered,
        ∃ c' ∈ clients, c'.id = i ∧ c'.readyStateOpen = true
          ∧ c'.sendOk = true)
    ∧ (∀ c' ∈ clients, c' ∉ (DashboardServer.broadcast clients).kept →
        c'.readyStateOpen = true ∧ c'.sendOk = false)
    ∧ ∀ (s : DSState) (now : Nat),
        (DashboardServer.step s (.disconnect c.id) now).1.clients
          = s.clients.filter (fun x => x.id ≠ c.id) := by
  rw [broadcast_eq]
  refine ⟨?_, ?_, ?_, ?_⟩
  · exact List.mem_filter.mpr ⟨hc, by simp [hnopen]⟩
  · intro i hi
    obtain ⟨c', hmem, hid⟩ := List.mem_map.mp hi
    have h2 := List.of_mem_filter hmem
    simp only [Bool.and_eq_true] at h2
    exact ⟨c', List.mem_of_mem_filter hmem, hid, h2.1, h2.2⟩
  · intro c' hc' hnk
    by_cases hro : c'.readyStateOpen = true
    · by_cases hso : c'.sendOk = true
      · exact absurd (List.mem_filter.mpr ⟨hc', by simp [hro, hso]⟩) hnk
      · exact ⟨hro, by simpa using hso⟩
    · exact absurd (List.mem_filter.mpr ⟨hc', by simp at hro; simp [hro]⟩) hnk
  · intro s now
    rfl

theorem broadcast_skips_non_open_witness :
    ((⟨1, false, true⟩ : Client) ∈
        [(⟨0, true, true⟩ : Client), ⟨1, false, true⟩]
      ∧ (⟨1, false, true⟩ : Client).readyStateOpen = false)
    ∧ ((⟨1, false, true⟩ : Client) ∈
        (DashboardServer.broadcast
          [(⟨0, true, true⟩ : Client), ⟨1, false, true⟩]).kept
      ∧ (∀ i ∈ (DashboardServer.broadcast
            [(⟨0, true, true⟩ : Client), ⟨1, false, true⟩]).delivered,
          ∃ c' ∈ [(⟨0, true, true⟩ : Client), ⟨1, false, true⟩],
            c'.id = i ∧ c'.readyStateOpen = true ∧ c'.sendOk = true)
      ∧ (∀ c' ∈ [(⟨0, true, true⟩ : Client), ⟨1, false, true⟩],
          c' ∉ (DashboardServer.broadcast
            [(⟨0, true, true⟩ : Client), ⟨1, false, true⟩]).kept →
          c'.readyStateOpen = true ∧ c'.sendOk = false)
      ∧ ∀ (s : DSState) (now : Nat),
          (DashboardServer.step s (.disconnect (⟨1, false, true⟩ : Client).id) now).1.clients
            = s.clients.filter (fun x => x.id ≠ (⟨1, false, true⟩ : Client).id)) :=
  ⟨⟨by decide, by decide⟩,
   broadcast_skips_non_open
     [(⟨0, true, true⟩ : Client), ⟨1, false, true⟩]
     ⟨1, false, true⟩ (by decide) (by decide)⟩

/-- C4: a message whose payload fails to parse, on any topic, leaves the
whole store unchanged and bumps the error log by exactly one, and the
next well-formed message on the same topic is processed exactly as it
would have been without the malformed one (same store, one extra logged
error). Shown for all four monitor topics and for the dashboard server's
status handler. -/
theorem malformed_message_isolated
    (s : CMState) (i : ComprehensiveMonitor.Input) (now now2 : Nat)
    (d : DSState) (e : String) (st : StatusMsg) :
    ComprehensiveMonitor.step s (ComprehensiveMonitor.malformed i) now
        = { s with errors := s.errors + 1 }
    ∧ ComprehensiveMonitor.step
        (ComprehensiveMonitor.step s (ComprehensiveMonitor.malformed i) now) i now2
        = { ComprehensiveMonitor.step s i now2 with
            errors := (ComprehensiveMonitor.step s i now2).errors + 1 }
    ∧ DashboardServer.handleMarketStatusUpdate d e none now
        = ({ d with errors := d.errors + 1 }, [])
    ∧ (DashboardServer.handleMarketStatusUpdate { d with errors := d.errors + 1 }
          e (some st) now2).1
        = { (DashboardServer.handleMarketStatusUpdate d e (some st) now2).1 with
            errors :=
              (DashboardServer.handleMarketStatusUpdate d e (some st) now2).1.errors + 1 }
    ∧ (DashboardServer.handleMarketStatusUpdate { d with errors := d.errors + 1 }
          e (some st) now2).2
        = (DashboardServer.handleMarketStatusUpdate d e (some st) now2).2 := by
  refine ⟨?_, ?_, rfl, ?_, ?_⟩
  · cases i <;> rfl
  · cases i with
    | health n msg => cases msg <;> rfl
    | orderbook msg =>
        cases msg with
        | none => rfl
        | some dd =>
            by_cases ht : dd.type ≠ "orderbook_update" <;>
              simp [ComprehensiveMonitor.step, ComprehensiveMonitor.malformed,
                ComprehensiveMonitor.handleOrderbookUpdate, ht]
    | status e2 msg =>
        cases msg with
        | none => rfl
        | some st2 =>
            by_cases hterm : st2.status = "CLOSED" ∨ st2.status = "CLEARED" <;>
              simp [ComprehensiveMonitor.step, ComprehensiveMonitor.malformed,
                ComprehensiveMonitor.handleMarketStatusUpdate, hterm]
    | discovery msg => cases msg <;> rfl
  · by_cases hterm : st.status = "CLOSED" ∨ st.status = "CLEARED" <;>
      simp [DashboardServer.handleMarketStatusUpdate, hterm]
  · by_cases hterm : st.status = "CLOSED" ∨ st.status = "CLEARED" <;>
      simp [DashboardServer.handleMarketStatusUpdate, hterm]

theorem perturbMarketA_bids_nil (m : Side) (bu au : Bool) (hb : m.bids = []) :
    (DashboardServer.perturbMarketA m bu au).bids = []
    ∧ (DashboardServer.perturbMarketA m bu au).bestBid = m.bestBid := by
  unfold DashboardServer.perturbMarketA
  simp only [hb]
  cases h2 : m.asks <;> simp [hb]

theorem perturbMarketA_bids_cons (m : Side) (bu au : Bool) (b : Level)
    (rest : List Level) (hb : m.bids = b :: rest) :
    (DashboardServer.perturbMarketA m bu au).bids
      = { b with price := b.price + (if bu then 1 else -1) } :: rest
    ∧ (DashboardServer.perturbMarketA m bu au).bestBid
      = b.price + (if bu then 1 else -1) := by
  unfold DashboardServer.perturbMarketA
  simp only [hb]
  cases h2 : m.asks <;> simp

theorem perturbMarketA_asks_nil (m : Side) (bu au : Bool) (ha : m.asks = []) :
    (DashboardServer.perturbMarketA m bu au).asks = []
    ∧ (DashboardServer.perturbMarketA m bu au).bestAsk = m.bestAsk := by
  unfold DashboardServer.perturbMarketA
  cases hb : m.bids <;> simp only [hb] <;> simp [ha]

theorem perturbMarketA_asks_cons (m : Side) (bu au : Bool) (a : Level)
    (rest : List Level) (ha : m.asks = a :: rest) :
    (DashboardServer.perturbMarketA m bu au).asks
      = { a with price := a.price + (if au then 1 else -1) } :: rest
    ∧ (DashboardServer.perturbMarketA m bu au).bestAsk
      = a.price + (if au then 1 else -1) := by
  unfold DashboardServer.perturbMarketA
  cases hb : m.bids <;> simp only [hb] <;> simp [ha]

theorem perturbMarketA_marketId (m : Side) (bu au : Bool) :
    (DashboardServer.perturbMarketA m bu au).marketId = m.marketId := by
  unfold DashboardServer.perturbMarketA
  cases hb : m.bids <;> simp only [hb] <;> cases ha : m.asks <;> simp [ha]

/-- C8: each demo tick gives every health record a bounded symmetric
random-walk step on cpu and memory, clamped so the stored values always
lie in `[0, 100]`; on each orderbook side at most the one top level
shifts, by exactly ±1, and the corresponding best price is re-derived to
equal the shifted level's price (`marketB` is never perturbed). -/
theorem demo_perturbation_bounded
    (s : DSState) (rnd : DashboardServer.DemoRand) (now : Nat)
    (hr : ∀ n, 0 ≤ (rnd.healthR n).1 ∧ (rnd.healthR n).1 ≤ 1
            ∧ 0 ≤ (rnd.healthR n).2 ∧ (rnd.healthR n).2 ≤ 1) :
    (∀ p ∈ (DashboardServer.updateDemoData s rnd now).1.healthData,
        0 ≤ p.2.fields.cpuUsage ∧ p.2.fields.cpuUsage ≤ 100
        ∧ 0 ≤ p.2.fields.memoryUsage ∧ p.2.fields.memoryUsage ≤ 100)
    ∧ (∀ (h : HealthRec) (r1 r2 : ℚ) (t : Nat),
        0 ≤ r1 → r1 ≤ 1 → 0 ≤ r2 → r2 ≤ 1 →
        ∃ d1 d2 : ℚ, |d1| ≤ 5 ∧ |d2| ≤ 5/2
          ∧ (DashboardServer.perturbHealth h r1 r2 t).fields.cpuUsage
              = DashboardServer.clampPct (h.fields.cpuUsage + d1)
          ∧ (DashboardServer.perturbHealth h r1 r2 t).fields.memoryUsage
              = DashboardServer.clampPct (h.fields.memoryUsage + d2))
    ∧ (∀ (m : Side) (bu au : Bool),
        (DashboardServer.perturbMarketA m bu au).marketId = m.marketId
        ∧ (m.bids = [] → (DashboardServer.perturbMarketA m bu au).bids = []
            ∧ (DashboardServer.perturbMarketA m bu au).bestBid = m.bestBid)
        ∧ (∀ b rest, m.bids = b :: rest →
            (DashboardServer.perturbMarketA m bu au).bids
              = { b with price := b.price + (if bu then 1 else -1) } :: rest
            ∧ (DashboardServer.perturbMarketA m bu au).bestBid
              = b.price + (if bu then 1 else -1))
        ∧ (m.asks = [] → (DashboardServer.perturbMarketA m bu au).asks = []
            ∧ (DashboardServer.perturbMarketA m bu au).bestAsk = m.bestAsk)
        ∧ (∀ a rest, m.asks = a :: rest →
            (DashboardServer.perturbMarketA m bu au).asks
              = { a with price := a.price + (if au then 1 else -1) } :: rest
            ∧ (DashboardServer.perturbMarketA m bu au).bestAsk
              = a.price + (if au then 1 else -1)))
    ∧ (∀ (q : ObRec) (bu au : Bool) (t : Nat),
        (DashboardServer.perturbOb q bu au t).marketB = q.marketB
        ∧ (DashboardServer.perturbOb q bu au t).marketA
            = DashboardServer.perturbMarketA q.marketA bu au) := by
  refine ⟨?_, ?_, ?_, ?_⟩
  · intro p hp
    have hhd : (DashboardServer.updateDemoData s rnd now).1.healthData
        = s.healthData.map (fun p =>
            (p.1, DashboardServer.perturbHealth p.2
              (rnd.healthR p.1).1 (rnd.healthR p.1).2 now)) := by
      unfold DashboardServer.updateDemoData
      split <;> rfl
    rw [hhd] at hp
    obtain ⟨p0, hp0, rfl⟩ := List.mem_map.mp hp
    simp only [DashboardServer.perturbHealth, DashboardServer.clampPct]
    refine ⟨le_max_left _ _, max_le (by norm_num) (min_le_left _ _),
      le_max_left _ _, max_le (by norm_num) (min_le_left _ _)⟩
  · intro h r1 r2 t h1 h2 h3 h4
    refine ⟨(r1 - 1/2) * 10, (r2 - 1/2) * 5, ?_, ?_, rfl, rfl⟩
    · rw [abs_le]
      constructor <;> nlinarith
    · rw [abs_le]
      constructor <;> nlinarith
  · intro m bu au
    exact ⟨perturbMarketA_marketId m bu au,
      fun hb => perturbMarketA_bids_nil m bu au hb,
      fun b rest hb => perturbMarketA_bids_cons m bu au b rest hb,
      fun ha => perturbMarketA_asks_nil m bu au ha,
      fun a rest ha => perturbMarketA_asks_cons m bu au a rest ha⟩
  · intro q bu au t
    exact ⟨rfl, rfl⟩

def demoRandSample : DashboardServer.DemoRand :=
  ⟨fun _ => (1, 1/2), 0, fun _ _ => true, fun _ _ => false⟩

theorem demo_perturbation_bounded_witness :
    (∀ n, 0 ≤ (demoRandSample.healthR n).1 ∧ (demoRandSample.healthR n).1 ≤ 1
        ∧ 0 ≤ (demoRandSample.healthR n).2 ∧ (demoRandSample.healthR n).2 ≤ 1)
    ∧ ((∀ p ∈ (DashboardServer.updateDemoData dsSample demoRandSample 11).1.healthData,
          0 ≤ p.2.fields.cpuUsage ∧ p.2.fields.cpuUsage ≤ 100
          ∧ 0 ≤ p.2.fields.memoryUsage ∧ p.2.fields.memoryUsage ≤ 100)
      ∧ (∀ (h : HealthRec) (r1 r2 : ℚ) (t : Nat),
          0 ≤ r1 → r1 ≤ 1 → 0 ≤ r2 → r2 ≤ 1 →
          ∃ d1 d2 : ℚ, |d1| ≤ 5 ∧ |d2| ≤ 5/2
            ∧ (DashboardServer.perturbHealth h r1 r2 t).fields.cpuUsage
                = DashboardServer.clampPct (h.fields.cpuUsage + d1)
            ∧ (DashboardServer.perturbHealth h r1 r2 t).fields.memoryUsage
                = DashboardServer.clampPct (h.fields.memoryUsage + d2))
      ∧ (∀ (m : Side) (bu au : Bool),
          (DashboardServer.perturbMarketA m bu au).marketId = m.marketId
          ∧ (m.bids = [] → (DashboardServer.perturbMarketA m bu au).bids = []
              ∧ (DashboardServer.perturbMarketA m bu au).bestBid = m.bestBid)
          ∧ (∀ b rest, m.bids = b :: rest →
              (DashboardServer.perturbMarketA m bu au).bids
                = { b with price := b.price + (if bu then 1 else -1) } :: rest
              ∧ (DashboardServer.perturbMarketA m bu au).bestBid
                = b.price + (if bu then 1 else -1))
          ∧ (m.asks = [] → (DashboardServer.perturbMarketA m bu au).asks = []
              ∧ (DashboardServer.perturbMarketA m bu au).bestAsk = m.bestAsk)
          ∧ (∀ a rest, m.asks = a :: rest →
              (DashboardServer.perturbMarketA m bu au).asks
                = { a with price := a.price + (if au then 1 else -1) } :: rest
              ∧ (DashboardServer.perturbMarketA m bu au).bestAsk
                = a.price + (if au then 1 else -1)))
      ∧ (∀ (q : ObRec) (bu au : Bool) (t : Nat),
          (DashboardServer.perturbOb q bu au t).marketB = q.marketB
          ∧ (DashboardServer.perturbOb q bu au t).marketA
              = DashboardServer.perturbMarketA q.marketA bu au)) :=
  ⟨fun n => by norm_num [demoRandSample],
   demo_perturbation_bounded dsSample demoRandSample 11
     (fun n => by norm_num [demoRandSample])⟩

/-- In a well-formed store, the cold-start replay names every snapshot
entity at most once. -/
theorem replay_entity_keys_nodup (s : DSState) (now : Nat)
    (hwf : DashboardServer.WF s) :
    ((DashboardServer.sendCachedDataToClient s now).map Event.entityKey).Nodup := by
  obtain ⟨hw1, hw2, hw3⟩ := hwf
  unfold DashboardServer.sendCachedDataToClient
  rw [List.map_append, List.map_append]
  have e1 : (s.healthData.map
        (fun p => Event.health_update p.1 p.2.fields now)).map Event.entityKey
      = (keysOf s.healthData).map EntityKey.healthOf := by
    simp [keysOf, List.map_map, Function.comp, Event.entityKey]
  have e2 : ((s.orderbooksByNode.map
        (fun p => p.2.map
          (fun q => Event.orderbook_update q.1 p.1 q.2.marketA q.2.marketB now))).flatten).map
        Event.entityKey
      = (s.orderbooksByNode.map
          (fun p => (keysOf p.2).map (EntityKey.orderbookOf p.1))).flatten := by
    rw [List.map_flatten]
    congr 1
    rw [List.map_map]
    apply List.map_congr_left
    intro p hp
    simp [keysOf, List.map_map, Function.comp, Event.entityKey]
  have n1 : ((keysOf s.healthData).map EntityKey.healthOf).Nodup :=
    hw1.map (fun a b h => by injection h)
  have n2 : ((s.orderbooksByNode.map
      (fun p => (keysOf p.2).map (EntityKey.orderbookOf p.1))).flatten).Nodup := by
    rw [List.nodup_flatten]
    constructor
    · intro l' hl'
      obtain ⟨p, hp, rfl⟩ := List.mem_map.mp hl'
      exact (hw3 p hp).map (fun a b h => by injection h)
    · have hpw : s.orderbooksByNode.Pairwise (fun a b => a.1 ≠ b.1) :=
        List.pairwise_map.mp hw2
      refine List.Pairwise.map _ ?_ hpw
      intro a b hab
      intro x hxa hxb
      obtain ⟨qa, _, rfl⟩ := List.mem_map.mp hxa
      obtain ⟨qb, _, heq⟩ := List.mem_map.mp hxb
      injection heq with h1 h2
      exact hab h1.symm
  rw [List.nodup_append, List.nodup_append, e1, e2]
  refine ⟨⟨n1, n2, ?_⟩, ?_, ?_⟩
  · intro a ha hb
    obtain ⟨ka, _, rfl⟩ := List.mem_map.mp ha
    obtain ⟨l', hl', hmem⟩ := List.mem_flatten.mp hb
    obtain ⟨p, hp, rfl⟩ := List.mem_map.mp hl'
    obtain ⟨kb, _, heq⟩ := List.mem_map.mp hmem
    exact absurd heq (by simp)
  · split <;> simp
  · intro a ha hb
    have hsh : (∃ k, a = EntityKey.healthOf k) ∨ ∃ n e, a = EntityKey.orderbookOf n e := by
      rcases List.mem_append.mp ha with h | h
      · obtain ⟨k, _, rfl⟩ := List.mem_map.mp h
        exact Or.inl ⟨k, rfl⟩
      · obtain ⟨l', hl', hmem⟩ := List.mem_flatten.mp h
        obtain ⟨p, hp, rfl⟩ := List.mem_map.mp hl'
        obtain ⟨kb, _, rfl⟩ := List.mem_map.mp hmem
        exact Or.inr ⟨p.1, kb, rfl⟩
    have htot : a ∈ ([Event.market_discovery s.totalMarkets now].map Event.entityKey)
        ∨ a ∈ ([] : List EntityKey) := by
      by_cases hz : s.totalMarkets > 0
      · simp only [if_pos hz] at hb
        exact Or.inl hb
      · simp only [if_neg hz] at hb
        exact Or.inr (by simp at hb)
    rcases htot with h | h
    · simp only [List.map_cons, List.map_nil, List.mem_singleton] at h
      rcases hsh with ⟨k, rfl⟩ | ⟨n, e, rfl⟩ <;> simp [Event.entityKey] at h
    · simp at h

/-- C3: when a client attaches while K entities exist in the store, the
connection step delivers to exactly that client the whole cached
snapshot: exactly `entityCount` many replay events, naming no entity
twice, ordered as all health records, then all orderbook records grouped
by node, then the known total market count; and in the sequential run
every delivery from later inputs comes after the replay. -/
theorem replay_complete_and_duplicate_free
    (s : DSState) (c : Client) (now : Nat)
    (hwf : DashboardServer.WF s) (hok : c.sendOk = true) :
    (DashboardServer.step s (.connect c) now).2
        = (DashboardServer.sendCachedDataToClient s now).map (fun e => (c.id, e))
    ∧ (DashboardServer.step s (.connect c) now).2.length
        = DashboardServer.entityCount s
    ∧ ((DashboardServer.sendCachedDataToClient s now).map Event.entityKey).Nodup
    ∧ (∃ L1 L2 L3, DashboardServer.sendCachedDataToClient s now = L1 ++ L2 ++ L3
        ∧ (∀ e ∈ L1, ∃ n h, e = Event.health_update n h now)
        ∧ (∀ e ∈ L2, ∃ ev n a b, e = Event.orderbook_update ev n a b now)
        ∧ L3 = (if s.totalMarkets > 0
            then [Event.market_discovery s.totalMarkets now] else []))
    ∧ (∀ rest, (DashboardServer.run s ((.connect c, now) :: rest)).2
        = (DashboardServer.step s (.connect c) now).2
          ++ (DashboardServer.run (DashboardServer.step s (.connect c) now).1 rest).2) := by
  have hstep : (DashboardServer.step s (.connect c) now).2
      = (DashboardServer.sendCachedDataToClient s now).map (fun e => (c.id, e)) := by
    simp [DashboardServer.step, hok]
  refine ⟨hstep, ?_, replay_entity_keys_nodup s now hwf, ?_, ?_⟩
  · rw [hstep, List.length_map]
    unfold DashboardServer.sendCachedDataToClient DashboardServer.entityCount
    rw [List.length_append, List.length_append, List.length_map,
      List.length_flatten, List.map_map]
    have hmid : (s.orderbooksByNode.map
          (List.length ∘ fun p => p.2.map
            (fun q => Event.orderbook_update q.1 p.1 q.2.marketA q.2.marketB now)))
        = s.orderbooksByNode.map (fun p => p.2.length) := by
      apply List.map_congr_left
      intro p hp
      simp
    rw [hmid]
    by_cases hz : s.totalMarkets > 0 <;> simp [hz]
  · unfold DashboardServer.sendCachedDataToClient
    refine ⟨_, _, _, rfl, ?_, ?_, rfl⟩
    · intro e he
      obtain ⟨p, hp, rfl⟩ := List.mem_map.mp he
      exact ⟨p.1, p.2.fields, rfl⟩
    · intro e he
      obtain ⟨l', hl', hmem⟩ := List.mem_flatten.mp he
      obtain ⟨p, hp, rfl⟩ := List.mem_map.mp hl'
      obtain ⟨q, hq, rfl⟩ := List.mem_map.mp hmem
      exact ⟨q.1, p.1, q.2.marketA, q.2.marketB, rfl⟩
  · intro rest
    rfl

theorem replay_complete_and_duplicate_free_witness :
    (DashboardServer.WF dsSample ∧ (⟨2, true, true⟩ : Client).sendOk = true)
    ∧ ((DashboardServer.step dsSample (.connect ⟨2, true, true⟩) 3).2
          = (DashboardServer.sendCachedDataToClient dsSample 3).map
              (fun e => ((⟨2, true, true⟩ : Client).id, e))
      ∧ (DashboardServer.step dsSample (.connect ⟨2, true, true⟩) 3).2.length
          = DashboardServer.entityCount dsSample
      ∧ ((DashboardServer.sendCachedDataToClient dsSample 3).map Event.entityKey).Nodup
      ∧ (∃ L1 L2 L3,
            DashboardServer.sendCachedDataToClient dsSample 3 = L1 ++ L2 ++ L3
          ∧ (∀ e ∈ L1, ∃ n h, e = Event.health_update n h 3)
          ∧ (∀ e ∈ L2, ∃ ev n a b, e = Event.orderbook_update ev n a b 3)
          ∧ L3 = (if dsSample.totalMarkets > 0
              then [Event.market_discovery dsSample.totalMarkets 3] else []))
      ∧ (∀ rest,
          (DashboardServer.run dsSample ((.connect ⟨2, true, true⟩, 3) :: rest)).2
            = (DashboardServer.step dsSample (.connect ⟨2, true, true⟩) 3).2
              ++ (DashboardServer.run
                  (DashboardServer.step dsSample (.connect ⟨2, true, true⟩) 3).1 rest).2)) :=
  ⟨⟨by unfold DashboardServer.WF KeysNodup; decide, by decide⟩,
   replay_complete_and_duplicate_free dsSample ⟨2, true, true⟩ 3
     (by unfold DashboardServer.WF KeysNodup; decide) (by decide)⟩
